import Mathlib

/-!
Verification of the geospatial proximity engine of the women-analytics
backend (Node.js/Express).  The development shallowly embeds the relevant
JavaScript modules:

* `utils/haversine.js`  — the distance kernel (`calculateDistance`), modelled
  over the real numbers as the idealisation of IEEE-754 double arithmetic;
* `data/users.js`       — the in-memory user directory (`addUser`,
  `findNearbyUsers`, `getUser`, `removeUser`, `cleanupOldUsers`,
  `initializeUsers`);
* `routes/sos.js`       — the SOS alert handler;
* `utils/csvParser.js`  — the crime-incident dataset (row validation,
  load/reload life-cycle, filters);
* `routes/crime-zones.js` — the crime query handler.

Modelling conventions:

* Finite JavaScript numbers are rationals (`ℚ`).  Non-finite values (`NaN`,
  and the infinities, which no code path here produces from well-formed
  data) are modelled as `Option.none`; timestamps are integers
  (milliseconds since the epoch).
* The distance function used by the directory store and the routes is a
  parameter `dist : ℚ → ℚ → ℚ → ℚ → ℚ` standing for the imported
  `calculateDistance`, whose numeric body is transcendental; the claims
  about the store and routes hold for every distance function.
* JavaScript `Map` objects are association lists in insertion order
  (`Map.set` overwrites in place, `Map.delete` removes, `forEach` iterates
  in insertion order).
* JavaScript truthiness of the values that actually flow through the code
  (strings, numbers, `undefined`) is modelled by explicit `truthy`
  functions.
-/

namespace WSA

/-! ### Character/string primitives (JS `trim`, `toLowerCase`, `includes`) -/

/-- Whitespace recognised by the model of JS `trim`/`parseFloat` skipping. -/
def isWsChar (c : Char) : Bool :=
  c = ' ' || c = '\t' || c = '\n' || c = '\r'

/-- ASCII lower-casing of one character (model of JS `toLowerCase` on the
ASCII category labels appearing in the data). -/
def lowerChar (c : Char) : Char :=
  if 'A' ≤ c ∧ c ≤ 'Z' then Char.ofNat (c.toNat + 32) else c

/-- Model of `s.toLowerCase()`, as a character list. -/
def lowerStr (s : String) : List Char :=
  s.toList.map lowerChar

/-- JS `String.prototype.trim` (leading and trailing whitespace removed). -/
def trimStr (s : String) : String :=
  ⟨((s.toList.dropWhile isWsChar).reverse.dropWhile isWsChar).reverse⟩

/-- JS `hay.toLowerCase().includes(needle.toLowerCase())`: case-insensitive
substring containment. -/
def includesCI (hay needle : String) : Bool :=
  decide (lowerStr needle <:+: lowerStr hay)

/-! ### `parseFloat`

A model of JavaScript `parseFloat` on strings: skip leading whitespace,
optional sign, decimal significand (`digits`, `digits.digits` or
`.digits`), optional exponent (`e`/`E`, optional sign, digits), parsing the
longest valid prefix and ignoring trailing garbage.  `none` models `NaN`
(no parsable significand).  The `Infinity` literals, which denote
non-finite numbers and are outside the rational model, are likewise mapped
to `none`. -/

/-- Numeric value of a digit string (most significant first). -/
def digitsVal (ds : List Char) : ℕ :=
  ds.foldl (fun acc c => acc * 10 + (c.toNat - 48)) 0

/-- Split off a (possibly empty) leading run of decimal digits. -/
def spanDigits (cs : List Char) : List Char × List Char :=
  (cs.takeWhile Char.isDigit, cs.dropWhile Char.isDigit)

/-- Consume an optional leading sign, returning whether it was negative. -/
def parseSign : List Char → Bool × List Char
  | '-' :: rest => (true, rest)
  | '+' :: rest => (false, rest)
  | cs => (false, cs)

/-- Parse an optionally signed digit run; without digits the exponent part
counts as `0` (as in JS, where `"1e"` parses as `1`). -/
def parseSignedExp : List Char → ℤ
  | '-' :: rest => -(digitsVal (rest.takeWhile Char.isDigit) : ℤ)
  | '+' :: rest => (digitsVal (rest.takeWhile Char.isDigit) : ℤ)
  | cs => (digitsVal (cs.takeWhile Char.isDigit) : ℤ)

/-- The exponent contributed by a trailing `e`/`E` part. -/
def parseExp : List Char → ℤ
  | 'e' :: rest => parseSignedExp rest
  | 'E' :: rest => parseSignedExp rest
  | _ => 0

/-- The components of a successfully parsed decimal literal: sign, integer
part, fractional digits (as a number together with their count), exponent. -/
structure DecParts where
  neg : Bool
  intPart : ℕ
  fracPart : ℕ
  fracLen : ℕ
  exp : ℤ
deriving DecidableEq

/-- The syntactic phase of `parseFloat` over a character list: skip leading
whitespace, optional sign, decimal digits with optional fraction, optional
exponent, always taking the longest valid prefix.  `none` when there is no
parsable significand. -/
def parseFloatParts (cs0 : List Char) : Option DecParts :=
  let cs1 := cs0.dropWhile isWsChar
  let sg := parseSign cs1
  let ip := spanDigits sg.2
  let fp := match ip.2 with
            | '.' :: rest => spanDigits rest
            | _ => ([], ip.2)
  if ip.1 = [] ∧ fp.1 = [] then none
  else some ⟨sg.1, digitsVal ip.1, digitsVal fp.1, fp.1.length, parseExp fp.2⟩

/-- The numeric value denoted by parsed decimal components. -/
def decValue (p : DecParts) : ℚ :=
  (if p.neg then -1 else 1) * ((p.intPart : ℚ) + (p.fracPart : ℚ) / (10 : ℚ) ^ p.fracLen)
    * (10 : ℚ) ^ p.exp

/-- JS `parseFloat` on a string, `none` = `NaN`. -/
def parseFloat (s : String) : Option ℚ :=
  (parseFloatParts s.toList).map decValue

/-! ### JavaScript values -/

/-- The JavaScript values that flow into the coordinate positions of the
engine's operations: `undefined` (a missing field), `NaN`, a finite number,
or a string. -/
inductive JsVal where
  | missing
  | nan
  | num (q : ℚ)
  | str (s : String)
deriving DecidableEq

/-- JS truthiness of a `JsVal`: `undefined`, `NaN`, `0` and `""` are falsy. -/
def JsVal.truthy : JsVal → Bool
  | .missing => false
  | .nan => false
  | .num q => q != 0
  | .str s => s != ""

/-- JS `parseFloat` applied to a `JsVal` (for a finite number `parseFloat`
is the identity; for `undefined` and `NaN` it yields `NaN`). -/
def JsVal.parse : JsVal → Option ℚ
  | .missing => none
  | .nan => none
  | .num q => some q
  | .str s => parseFloat s

/-- Truthiness of an optional string (`undefined` and `""` are falsy). -/
def strOptTruthy : Option String → Bool
  | none => false
  | some s => s != ""

/-! ### Directory store (`data/users.js`)

The JS module keeps `users = new Map()`, keyed by username.  A `Map` is
modelled as an association list in insertion order; `Map.set` overwrites in
place, `Map.delete` removes the (unique) binding, `Map.forEach` iterates in
insertion order. -/

/-- A stored directory entry.  `latitude`/`longitude` are `none` when the
stored coordinate is `NaN` (which `addUser` produces for a truthy
non-numeric input); `lastSeen` is a timestamp in milliseconds. -/
structure User where
  username : String
  latitude : Option ℚ
  longitude : Option ℚ
  lastSeen : ℤ
deriving DecidableEq

/-- The `users` map: an association list from username to entry. -/
abbrev UserMap := List (String × User)

/-- Model of `Map.set`: overwrite in place when the key is present (a JS `Map`
keeps the original insertion position), else append. -/
def mapSet (m : UserMap) (k : String) (v : User) : UserMap :=
  if m.any (fun p => p.1 == k) then m.map (fun p => if p.1 == k then (k, v) else p)
  else m ++ [(k, v)]

/-- Model of `Map.get`, with JS `undefined` as `none`. -/
def mapGet (m : UserMap) (k : String) : Option User :=
  (m.find? (fun p => p.1 == k)).map (fun p => p.2)

/-- The hard-coded `mockUsers` array (NYC, Lucknow Rajajipuram and Punjab
SLIET volunteers); every `lastSeen` is the module-load time `t0`. -/
def mockUsers (t0 : ℤ) : List User :=
  [⟨"Sarah_M", some 40.7580, some (-73.9855), t0⟩,
   ⟨"Emma_K", some 40.7520, some (-73.9860), t0⟩,
   ⟨"Jessica_L", some 40.7610, some (-73.9840), t0⟩,
   ⟨"Amanda_R", some 40.7490, some (-73.9857), t0⟩,
   ⟨"Michelle_T", some 40.7530, some (-73.9880), t0⟩,
   ⟨"Lisa_H", some 40.7560, some (-73.9870), t0⟩,
   ⟨"Rachel_B", some 40.7500, some (-73.9900), t0⟩,
   ⟨"Nicole_W", some 40.7570, some (-73.9830), t0⟩,
   ⟨"Priya_Sharma", some 26.8553, some 80.8805, t0⟩,
   ⟨"Anita_Gupta", some 26.8565, some 80.8820, t0⟩,
   ⟨"Meera_Singh", some 26.8540, some 80.8790, t0⟩,
   ⟨"Ritu_Agarwal", some 26.8575, some 80.8815, t0⟩,
   ⟨"Sunita_Verma", some 26.8520, some 80.8785, t0⟩,
   ⟨"Kavita_Yadav", some 26.8590, some 80.8825, t0⟩,
   ⟨"Neha_Mishra", some 26.8510, some 80.8775, t0⟩,
   ⟨"Pooja_Tiwari", some 26.8580, some 80.8810, t0⟩,
   ⟨"Deepika_Pandey", some 26.8530, some 80.8795, t0⟩,
   ⟨"Shweta_Dubey", some 26.8560, some 80.8800, t0⟩,
   ⟨"Simran_Kaur", some 30.4726, some 76.5269, t0⟩,
   ⟨"Jaspreet_Singh", some 30.4735, some 76.5280, t0⟩,
   ⟨"Manpreet_Kaur", some 30.4718, some 76.5255, t0⟩,
   ⟨"Harpreet_Singh", some 30.4740, some 76.5285, t0⟩,
   ⟨"Gurpreet_Kaur", some 30.4710, some 76.5250, t0⟩,
   ⟨"Rajveer_Singh", some 30.4745, some 76.5290, t0⟩,
   ⟨"Navjot_Kaur", some 30.4705, some 76.5245, t0⟩,
   ⟨"Sukhvir_Singh", some 30.4750, some 76.5295, t0⟩,
   ⟨"Jaskiran_Kaur", some 30.4715, some 76.5260, t0⟩,
   ⟨"Arshdeep_Singh", some 30.4730, some 76.5275, t0⟩]

/-- The function `initializeUsers`: `mockUsers.forEach(user => users.set(user.username, user))`
starting from the empty map created at module load. -/
def initializeUsers (t0 : ℤ) : UserMap :=
  (mockUsers t0).foldl (fun m u => mapSet m u.username u) []

/-- The argument object of `addUser`; any of the fields may be absent. -/
structure UserData where
  username : Option String
  latitude : JsVal
  longitude : JsVal
  lastSeen : Option ℤ
deriving DecidableEq

/-- The function `addUser(userData)`: rejects (returning `false`) when `username`,
`latitude` or `longitude` is falsy; otherwise stores
`{username, parseFloat(latitude), parseFloat(longitude), lastSeen || now}`
under `username` and returns `true`.  `now` is the current time used for a
missing `lastSeen`. -/
def addUser (now : ℤ) (m : UserMap) (d : UserData) : UserMap × Bool :=
  if !strOptTruthy d.username || !d.latitude.truthy || !d.longitude.truthy then
    (m, false)
  else
    let uname := d.username.getD ""
    (mapSet m uname ⟨uname, d.latitude.parse, d.longitude.parse, d.lastSeen.getD now⟩, true)

/-- An element of the array built by `findNearbyUsers`: the spread of a
stored entry together with its computed `distance`. -/
structure NearbyUser where
  user : User
  distance : ℚ
deriving DecidableEq

/-- The guard `excludeUser && username === excludeUser`. -/
def excludesB (excludeUser : Option String) (username : String) : Bool :=
  match excludeUser with
  | some s => s != "" && username == s
  | none => false

/-- The body of the `users.forEach` loop of `findNearbyUsers`: skip the
excluded user, skip entries with a `NaN` coordinate, keep entries with
`distance <= radius` annotated with their distance. -/
def nearbyStep (dist : ℚ → ℚ → ℚ → ℚ → ℚ) (lat lng radius : ℚ)
    (excludeUser : Option String) (p : String × User) : Option NearbyUser :=
  if excludesB excludeUser p.1 then none
  else
    match p.2.latitude, p.2.longitude with
    | some ulat, some ulng =>
      let d := dist lat lng ulat ulng
      if d ≤ radius then some ⟨p.2, d⟩ else none
    | _, _ => none

/-- The function `findNearbyUsers(latitude, longitude, radius, excludeUser)`:
`parseFloat` the centre; on `NaN` return the empty array; otherwise scan
every entry and sort the kept ones ascending by distance
(`nearbyUsers.sort((a, b) => a.distance - b.distance)`). -/
def findNearbyUsers (dist : ℚ → ℚ → ℚ → ℚ → ℚ) (m : UserMap)
    (latitude longitude : JsVal) (radius : ℚ) (excludeUser : Option String) :
    List NearbyUser :=
  match latitude.parse, longitude.parse with
  | some lat, some lng =>
    (m.filterMap (nearbyStep dist lat lng radius excludeUser)).insertionSort
      (fun a b => a.distance ≤ b.distance)
  | _, _ => []

/-- The function `getUser(username)`: `users.get(username) || null`. -/
def getUser (m : UserMap) (k : String) : Option User :=
  mapGet m k

/-- The function `removeUser(username)`: `users.delete(username)`, returning whether a
binding was removed. -/
def removeUser (m : UserMap) (k : String) : UserMap × Bool :=
  (m.filter (fun p => p.1 != k), m.any (fun p => p.1 == k))

/-- The function `cleanupOldUsers(maxAgeMs)`: the `forEach` loop deletes every entry
whose age `now - lastSeen` strictly exceeds `maxAgeMs` and counts the
deletions; since a JS `Map` has one binding per key, its net effect is this
filter together with the count of dropped entries. -/
def cleanupOldUsers (now maxAgeMs : ℤ) (m : UserMap) : UserMap × ℕ :=
  let kept := m.filter (fun p => !decide (maxAgeMs < now - p.2.lastSeen))
  (kept, m.length - kept.length)

/-! ### SOS route (`routes/sos.js`) -/

/-- Outcome of `POST /api/sos`: a 400 validation rejection, or a 200
response carrying the nearby-user list (also broadcast to the dashboards)
and the directory state after the sender's upsert. -/
inductive SosResult where
  | badRequest
  | success (nearbyUsers : List NearbyUser) (store : UserMap)
deriving DecidableEq

/-- The `/api/sos` handler body: reject when a field is falsy; `parseFloat`
the coordinates and reject `NaN` or out-of-range values; then call
`findNearbyUsers(lat, lng, NEARBY_RADIUS)` — with no exclusion argument —
and afterwards `addUser` the sender with `lastSeen` equal to the alert
timestamp. -/
def handleSos (dist : ℚ → ℚ → ℚ → ℚ → ℚ) (nearbyRadius : ℚ) (now : ℤ)
    (m : UserMap) (username : Option String) (latitude longitude : JsVal) :
    SosResult :=
  if !strOptTruthy username || !latitude.truthy || !longitude.truthy then .badRequest
  else
    match latitude.parse, longitude.parse with
    | some lat, some lng =>
      if lat < -90 ∨ lat > 90 ∨ lng < -180 ∨ lng > 180 then .badRequest
      else
        let nearbyUsers := findNearbyUsers dist m (.num lat) (.num lng) nearbyRadius none
        let m2 := (addUser now m ⟨username, .num lat, .num lng, some now⟩).1
        .success nearbyUsers m2
    | _, _ => .badRequest

/-! ### Incident dataset (`utils/csvParser.js`) -/

/-- One row delivered by the CSV stream: the string values of the
`latitude` and `longitude` columns and the (possibly missing) `type`
column. -/
structure CsvRow where
  latitude : String
  longitude : String
  type : Option String
deriving DecidableEq

/-- A loaded incident record: sequential identifier `crime_N`, validated
coordinates, category label and the original row. -/
structure CrimeRecord where
  id : String
  latitude : ℚ
  longitude : ℚ
  type : String
  raw : CsvRow
deriving DecidableEq

/-- The expression `row.type ? row.type.trim() : 'Unknown'`. -/
def rowCategory (row : CsvRow) : String :=
  match row.type with
  | some s => if s != "" then trimStr s else "Unknown"
  | none => "Unknown"

/-- The body of the `'data'` handler of `loadCrimeData`: parse the
coordinates, validate `-90 ≤ lat ≤ 90` and `-180 ≤ lng ≤ 180`, and on
success push a record with id `crime_${results.length + 1}`; otherwise the
row is skipped (with a warning). -/
def processRow (results : List CrimeRecord) (row : CsvRow) : List CrimeRecord :=
  match parseFloat row.latitude, parseFloat row.longitude with
  | some latitude, some longitude =>
    if -90 ≤ latitude ∧ latitude ≤ 90 ∧ -180 ≤ longitude ∧ longitude ≤ 180 then
      results ++ [⟨"crime_" ++ toString (results.length + 1), latitude, longitude,
                   rowCategory row, row⟩]
    else results
  | _, _ => results

/-- The records accumulated over a whole stream of rows. -/
def loadRows (rows : List CsvRow) : List CrimeRecord :=
  rows.foldl processRow []

/-- The module-level mutable state of `csvParser.js`. -/
structure CrimeState where
  crimeData : List CrimeRecord
  isDataLoaded : Bool
deriving DecidableEq

/-- The possible behaviours of the CSV source: the file is absent, the
stream delivers rows and ends, or the stream fails mid-read (after which no
`'end'` event fires). -/
inductive CsvSource where
  | missing
  | ok (rows : List CsvRow)
  | failsMidRead (rows : List CsvRow)
deriving DecidableEq

/-- The function `loadCrimeData()`: on a missing file, set `crimeData = []`,
`isDataLoaded = true` and resolve with `[]`; on a completed stream, assign
the fully buffered `results` and resolve with them; on a stream error, set
`crimeData = []`, `isDataLoaded = true` and reject.  The prior state is
irrelevant to the outcome. -/
def loadCrimeData (src : CsvSource) : CrimeState × Except Unit (List CrimeRecord) :=
  match src with
  | .missing => (⟨[], true⟩, .ok [])
  | .ok rows => (⟨loadRows rows, true⟩, .ok (loadRows rows))
  | .failsMidRead _ => (⟨[], true⟩, .error ())

/-- The function `getCrimeData()`: empty array (with a warning) while `isDataLoaded` is
false, else the current collection. -/
def getCrimeData (st : CrimeState) : List CrimeRecord :=
  if !st.isDataLoaded then [] else st.crimeData

/-- The function `getCrimesByType(crimeType)`: case-insensitive substring filter. -/
def getCrimesByType (st : CrimeState) (crimeType : String) : List CrimeRecord :=
  st.crimeData.filter (fun c => includesCI c.type crimeType)

/-- The function `getCrimesInArea(centerLat, centerLng, radius)`: keep the records whose
distance from the centre is at most `radius`. -/
def getCrimesInArea (dist : ℚ → ℚ → ℚ → ℚ → ℚ) (st : CrimeState)
    (centerLat centerLng radius : ℚ) : List CrimeRecord :=
  st.crimeData.filter (fun c => decide (dist centerLat centerLng c.latitude c.longitude ≤ radius))

/-- The synchronous first step of `reloadCrimeData()`: `isDataLoaded =
false` while `crimeData` is left untouched until the awaited load
completes. -/
def reloadStarted (st : CrimeState) : CrimeState :=
  ⟨st.crimeData, false⟩

/-- The states a concurrent reader can observe around a reload: before the
call, after the synchronous flag reset while the asynchronous load is in
flight (the collection itself is only reassigned by the terminal stream
events), and after the load settles. -/
def reloadObservableStates (st : CrimeState) (src : CsvSource) : List CrimeState :=
  [st, reloadStarted st, (loadCrimeData src).1]

/-! ### Crime-zones route (`routes/crime-zones.js`) -/

/-- The type filter of `GET /api/crime-zones`: applied only when the
`type` query parameter is truthy; keeps records whose truthy `type` label
contains the parameter case-insensitively. -/
def typeFilter (cd : List CrimeRecord) (ty : Option String) : List CrimeRecord :=
  match ty with
  | some t => if t != "" then cd.filter (fun c => c.type != "" && includesCI c.type t) else cd
  | none => cd

/-- The guard of the area filter: `lat && lng && radius` all truthy and all
three `parseFloat` to numbers; otherwise the filter is skipped. -/
def areaParams (lat lng radius : Option String) : Option (ℚ × ℚ × ℚ) :=
  match lat, lng, radius with
  | some a, some b, some r =>
    if a != "" && b != "" && r != "" then
      match parseFloat a, parseFloat b, parseFloat r with
      | some la, some lo, some ra => some (la, lo, ra)
      | _, _, _ => none
    else none
  | _, _, _ => none

/-- The `GET /api/crime-zones` handler body: early-return an empty payload
when there is no data; filter by type when supplied; filter by area when
`lat`, `lng` and `radius` are all supplied and numeric, silently ignoring
the area parameters otherwise. -/
def handleCrimeZones (dist : ℚ → ℚ → ℚ → ℚ → ℚ) (cd : List CrimeRecord)
    (lat lng radius ty : Option String) : List CrimeRecord :=
  if cd.isEmpty then []
  else
    let cd1 := typeFilter cd ty
    match areaParams lat lng radius with
    | some (la, lo, ra) =>
      cd1.filter (fun c => decide (dist la lo c.latitude c.longitude ≤ ra))
    | none => cd1

/-! ### Distance kernel (`utils/haversine.js`)

The kernel is pure floating-point trigonometry; it is modelled over the
real numbers, the standard idealisation of IEEE-754 doubles. -/

/-- The function `toRadians(degrees)`. -/
noncomputable def toRadians (degrees : ℝ) : ℝ :=
  degrees * (Real.pi / 180)

/-- JS `Math.atan2(y, x)`. -/
noncomputable def atan2 (y x : ℝ) : ℝ :=
  if 0 < x then Real.arctan (y / x)
  else if x < 0 ∧ 0 ≤ y then Real.arctan (y / x) + Real.pi
  else if x < 0 ∧ y < 0 then Real.arctan (y / x) - Real.pi
  else if x = 0 ∧ 0 < y then Real.pi / 2
  else if x = 0 ∧ y < 0 then -(Real.pi / 2)
  else 0

/-- JS `Math.round` on a real argument: round half towards positive
infinity, which coincides with Lean's `round` (`⌊x + 1/2⌋`). -/
noncomputable def jsRound (x : ℝ) : ℤ :=
  ⌊x + 1 / 2⌋

/-- The function `calculateDistance(lat1, lng1, lat2, lng2)`: the haversine great-circle
distance in metres, rounded to the nearest metre. -/
noncomputable def calculateDistance (lat1 lng1 lat2 lng2 : ℝ) : ℤ :=
  let lat1Rad := toRadians lat1
  let lng1Rad := toRadians lng1
  let lat2Rad := toRadians lat2
  let lng2Rad := toRadians lng2
  let deltaLat := lat2Rad - lat1Rad
  let deltaLng := lng2Rad - lng1Rad
  let a := Real.sin (deltaLat / 2) * Real.sin (deltaLat / 2) +
    Real.cos lat1Rad * Real.cos lat2Rad * Real.sin (deltaLng / 2) * Real.sin (deltaLng / 2)
  let c := 2 * atan2 (Real.sqrt a) (Real.sqrt (1 - a))
  jsRound (6371000 * c)

/-! ## Theorems -/

/-- C8: `distanceMeters` is symmetric — for every pair of coordinates
`A = (lat1, lng1)` and `B = (lat2, lng2)`,
`calculateDistance(A, B) = calculateDistance(B, A)` (exactly, hence within
rounding) — and for every coordinate `P`, `calculateDistance(P, P) = 0`. -/
theorem calculateDistance_symm_and_self_zero :
    (∀ lat1 lng1 lat2 lng2 : ℝ,
       calculateDistance lat1 lng1 lat2 lng2 = calculateDistance lat2 lng2 lat1 lng1)
    ∧ ∀ lat lng : ℝ, calculateDistance lat lng lat lng = 0 := by
  constructor
  · intro lat1 lng1 lat2 lng2
    simp only [calculateDistance]
    have hA :
        Real.sin ((toRadians lat2 - toRadians lat1) / 2) *
            Real.sin ((toRadians lat2 - toRadians lat1) / 2) +
          Real.cos (toRadians lat1) * Real.cos (toRadians lat2) *
            Real.sin ((toRadians lng2 - toRadians lng1) / 2) *
            Real.sin ((toRadians lng2 - toRadians lng1) / 2) =
        Real.sin ((toRadians lat1 - toRadians lat2) / 2) *
            Real.sin ((toRadians lat1 - toRadians lat2) / 2) +
          Real.cos (toRadians lat2) * Real.cos (toRadians lat1) *
            Real.sin ((toRadians lng1 - toRadians lng2) / 2) *
            Real.sin ((toRadians lng1 - toRadians lng2) / 2) := by
      have h1 : (toRadians lat2 - toRadians lat1) / 2 =
          -((toRadians lat1 - toRadians lat2) / 2) := by ring
      have h2 : (toRadians lng2 - toRadians lng1) / 2 =
          -((toRadians lng1 - toRadians lng2) / 2) := by ring
      rw [h1, h2, Real.sin_neg, Real.sin_neg]
      ring
    rw [hA]
  · intro lat lng
    simp only [calculateDistance, sub_self, zero_div, Real.sin_zero, mul_zero, zero_mul,
      add_zero, zero_add, Real.sqrt_zero, sub_zero, Real.sqrt_one]
    have h0 : atan2 0 1 = 0 := by
      simp [atan2, Real.arctan_zero]
    rw [h0, mul_zero, mul_zero, jsRound]
    norm_num

/-- C5: `cleanupOldUsers(maxAge)` at time `now` keeps exactly the entries
whose age `now - lastSeen` does not exceed `maxAge` (so it removes exactly
those whose age strictly exceeds it, leaving every other entry unchanged),
returns the number of removed entries, and an immediately repeated call
with the same `now` removes zero entries. -/
theorem cleanupOldUsers_exact_and_idempotent (now maxAgeMs : ℤ) (m : UserMap) :
    (∀ p : String × User,
       p ∈ (cleanupOldUsers now maxAgeMs m).1 ↔ p ∈ m ∧ now - p.2.lastSeen ≤ maxAgeMs)
    ∧ (cleanupOldUsers now maxAgeMs m).2
        = (m.filter (fun p => decide (maxAgeMs < now - p.2.lastSeen))).length
    ∧ cleanupOldUsers now maxAgeMs (cleanupOldUsers now maxAgeMs m).1
        = ((cleanupOldUsers now maxAgeMs m).1, 0) := by
  refine ⟨fun p => ?_, ?_, ?_⟩
  · simp [cleanupOldUsers, List.mem_filter, not_lt]
  · have hperm :
        List.Perm
          ((m.filter (fun p => !decide (maxAgeMs < now - p.2.lastSeen))) ++
            (m.filter (fun p => decide (maxAgeMs < now - p.2.lastSeen)))) m := by
      simpa using List.filter_append_perm (fun p => !decide (maxAgeMs < now - p.2.lastSeen)) m
    have hlen := hperm.length_eq
    simp only [List.length_append] at hlen
    simp only [cleanupOldUsers]
    omega
  · have hself :
        List.filter (fun p => !decide (maxAgeMs < now - p.2.lastSeen))
          (cleanupOldUsers now maxAgeMs m).1 = (cleanupOldUsers now maxAgeMs m).1 := by
      refine List.filter_eq_self.mpr fun p hp => ?_
      simp only [cleanupOldUsers] at hp
      exact (List.mem_filter.mp hp).2
    simp only [cleanupOldUsers] at hself ⊢
    rw [hself]
    simp

/-- Looking up any key in the in-place-overwrite image of `mapSet` either
finds the new value (at the written key) or behaves as before. -/
theorem mapGet_map_overwrite (t : UserMap) (k k' : String) (v : User) (h : k' ≠ k) :
    mapGet (t.map (fun p => if p.1 == k then (k, v) else p)) k' = mapGet t k' := by
  induction t with
  | nil => rfl
  | cons p t ih =>
    by_cases hp : p.1 = k
    · have hk : ¬ k = k' := fun hkk => h (hkk ▸ rfl)
      simpa [mapGet, hp, hk, Ne.symm h] using ih
    · by_cases hp' : p.1 = k'
      · simp [mapGet, hp, hp', h]
      · simpa [mapGet, hp, hp'] using ih

/-- Looking up the written key in the overwrite image finds the new value,
provided the key occurs. -/
theorem mapGet_map_overwrite_self (t : UserMap) (k : String) (v : User)
    (hall : t.any (fun p => p.1 == k)) :
    mapGet (t.map (fun p => if p.1 == k then (k, v) else p)) k = some v := by
  induction t with
  | nil => simp at hall
  | cons p t ih =>
    by_cases hp : p.1 = k
    · simp [mapGet, hp]
    · have ht : t.any (fun q => q.1 == k) := by
        simpa [List.any_cons, hp] using hall
      simpa [mapGet, hp] using ih ht

/-- Appending a fresh binding does not change other lookups. -/
theorem mapGet_append_single_ne (t : UserMap) (k k' : String) (v : User) (h : k' ≠ k) :
    mapGet (t ++ [(k, v)]) k' = mapGet t k' := by
  induction t with
  | nil => simp [mapGet, Ne.symm h]
  | cons p t ih =>
    by_cases hp : p.1 = k'
    · simp [mapGet, hp]
    · simpa [mapGet, hp] using ih

/-- Looking up the freshly appended key finds it when it was absent. -/
theorem mapGet_append_single_self (t : UserMap) (k : String) (v : User)
    (hall : ¬ t.any (fun p => p.1 == k)) :
    mapGet (t ++ [(k, v)]) k = some v := by
  induction t with
  | nil => simp [mapGet]
  | cons p t ih =>
    have hp : ¬ p.1 = k := fun hx => hall (by simp [List.any_cons, hx])
    have ht : ¬ t.any (fun q => q.1 == k) := fun hx => hall (by simp [List.any_cons, hx])
    simpa [mapGet, hp] using ih ht

/-- Reading back the key just written by `mapSet`. -/
theorem mapGet_mapSet_self (m : UserMap) (k : String) (v : User) :
    mapGet (mapSet m k v) k = some v := by
  rw [mapSet]
  by_cases hall : m.any (fun p => p.1 == k)
  · rw [if_pos hall]
    exact mapGet_map_overwrite_self m k v hall
  · rw [if_neg hall]
    exact mapGet_append_single_self m k v hall

/-- Writing with `mapSet` leaves every other key unchanged. -/
theorem mapGet_mapSet_ne (m : UserMap) (k k' : String) (v : User) (h : k' ≠ k) :
    mapGet (mapSet m k v) k' = mapGet m k' := by
  rw [mapSet]
  by_cases hall : m.any (fun p => p.1 == k)
  · rw [if_pos hall]
    exact mapGet_map_overwrite m k k' v h
  · rw [if_neg hall]
    exact mapGet_append_single_ne m k k' v h

/-- C3 counterexample: the submission `{username: "alice", latitude: 0,
longitude: 50}` has a non-empty identity and numeric coordinates, so the
claim requires a successful upsert, but `addUser` rejects it (the falsy
check treats the numeric latitude `0` as missing) and leaves the store
unchanged. -/
theorem addUser_rejects_numeric_zero_latitude :
    addUser 1000 [] ⟨some "alice", .num 0, .num 50, none⟩ = ([], false) := by
  rfl

/-- C3 (amended): `addUser` returns rejected if and only if the identity is
missing or empty, or the latitude or longitude is falsy — missing, `NaN`,
the number `0`, or the empty string (so, beyond the claim, a numeric `0`
coordinate is also rejected, while a truthy non-numeric string is
accepted); in every other case it succeeds and inserts or overwrites the
entry for that identity with the `parseFloat`-coerced coordinates (`NaN`
for a non-numeric truthy string) and the given timestamp, defaulting to
the current time, leaving all other identities unchanged. -/
theorem addUser_reject_iff_falsy (now : ℤ) (m : UserMap) (d : UserData) :
    ((addUser now m d).2 = false ↔
       (d.username = none ∨ d.username = some "")
       ∨ (d.latitude = .missing ∨ d.latitude = .nan ∨ d.latitude = .num 0 ∨ d.latitude = .str "")
       ∨ (d.longitude = .missing ∨ d.longitude = .nan ∨ d.longitude = .num 0 ∨ d.longitude = .str ""))
    ∧ ((addUser now m d).2 = false → (addUser now m d).1 = m)
    ∧ ((addUser now m d).2 = true →
       ∃ uname, d.username = some uname ∧ uname ≠ "" ∧
         getUser (addUser now m d).1 uname
           = some ⟨uname, d.latitude.parse, d.longitude.parse, d.lastSeen.getD now⟩ ∧
         ∀ k, k ≠ uname → getUser (addUser now m d).1 k = getUser m k) := by
  obtain ⟨u, la, lo, ls⟩ := d
  have hbase : (addUser now m ⟨u, la, lo, ls⟩).2 = false ↔
      (!strOptTruthy u || !JsVal.truthy la || !JsVal.truthy lo) = true := by
    by_cases hc : !strOptTruthy u || !JsVal.truthy la || !JsVal.truthy lo <;>
      simp [addUser, hc]
  refine ⟨?_, ?_, ?_⟩
  · rw [hbase]
    rcases u with _ | s <;> rcases la with _ | _ | q | s1 <;> rcases lo with _ | _ | q2 | s2 <;>
      simp [strOptTruthy, JsVal.truthy] <;> tauto
  · intro hfail
    by_cases hc : !strOptTruthy u || !JsVal.truthy la || !JsVal.truthy lo
    · simp [addUser, hc]
    · simp [addUser, hc] at hfail
  · intro hok
    by_cases hc : !strOptTruthy u || !JsVal.truthy la || !JsVal.truthy lo
    · simp [addUser, hc] at hok
    · simp only [Bool.or_eq_false_iff, Bool.not_eq_false] at hc
      obtain ⟨⟨hu, hla⟩, hlo⟩ :
          (strOptTruthy u = true ∧ JsVal.truthy la = true) ∧ JsVal.truthy lo = true := by
        constructor
        · constructor
          · by_cases h1 : strOptTruthy u
            · exact h1
            · exact absurd (by simp [h1]) hc
          · by_cases h2 : JsVal.truthy la
            · exact h2
            · exact absurd (by simp [h2]) hc
        · by_cases h3 : JsVal.truthy lo
          · exact h3
          · exact absurd (by simp [h3]) hc
      rcases u with _ | s
      · simp [strOptTruthy] at hu
      · have hs : s ≠ "" := by simpa [strOptTruthy] using hu
        refine ⟨s, rfl, hs, ?_, ?_⟩
        · simp only [addUser, hu, hla, hlo, Bool.not_true, Bool.or_self, Bool.or_false,
            if_false, Option.getD_some, getUser]
          simpa using mapGet_mapSet_self m s ⟨s, JsVal.parse la, JsVal.parse lo, ls.getD now⟩
        · intro k hk
          simp only [addUser, hu, hla, hlo, Bool.not_true, Bool.or_self, Bool.or_false,
            if_false, Option.getD_some, getUser]
          simpa using mapGet_mapSet_ne m s k ⟨s, JsVal.parse la, JsVal.parse lo, ls.getD now⟩ hk

/-- Witness for the amended C3 theorem: the successful-upsert implication
instantiated on the concrete submission `{username: "alice", latitude: 12,
longitude: 34}` against the empty store at time `5`. -/
theorem addUser_reject_iff_falsy_witness :
    (addUser 5 [] ⟨some "alice", .num 12, .num 34, none⟩).2 = true ∧
    (∃ uname, (some "alice" : Option String) = some uname ∧ uname ≠ "" ∧
      getUser (addUser 5 [] ⟨some "alice", .num 12, .num 34, none⟩).1 uname
        = some ⟨uname, (JsVal.num 12).parse, (JsVal.num 34).parse, (none : Option ℤ).getD 5⟩ ∧
      ∀ k, k ≠ uname → getUser (addUser 5 [] ⟨some "alice", .num 12, .num 34, none⟩).1 k
        = getUser [] k) :=
  ⟨by rfl, (addUser_reject_iff_falsy 5 [] ⟨some "alice", .num 12, .num 34, none⟩).2.2 (by rfl)⟩

/-- C7: a missing incident source is not an error — `loadCrimeData`
resolves with the empty collection and sets the loaded flag — while a
stream-level failure mid-read is surfaced as a rejection with the
collection reset to empty and the loaded flag still set; in both outcomes
a subsequent `getCrimeData` returns the empty sequence. -/
theorem loadCrimeData_missing_and_failure :
    (loadCrimeData .missing = (⟨[], true⟩, .ok [])
       ∧ getCrimeData (loadCrimeData .missing).1 = [])
    ∧ ∀ rows : List CsvRow,
        loadCrimeData (.failsMidRead rows) = (⟨[], true⟩, .error ())
          ∧ getCrimeData (loadCrimeData (.failsMidRead rows)).1 = [] :=
  ⟨⟨rfl, rfl⟩, fun _ => ⟨rfl, rfl⟩⟩

/-- Spec-side row validity, following the spec's words: both coordinates
parse as numbers and lie within the valid latitude/longitude ranges. -/
def rowValid (row : CsvRow) : Bool :=
  match parseFloat row.latitude, parseFloat row.longitude with
  | some la, some lo => decide (-90 ≤ la ∧ la ≤ 90 ∧ -180 ≤ lo ∧ lo ≤ 180)
  | _, _ => false

/-- Spec-side record built from the `n`-th accepted row (1-based): the
sequential identifier formatted into a string, the parsed coordinates and
the trimmed-or-defaulted category label. -/
def mkRecord (n : ℕ) (row : CsvRow) : CrimeRecord :=
  ⟨"crime_" ++ toString n, (parseFloat row.latitude).getD 0,
   (parseFloat row.longitude).getD 0, rowCategory row, row⟩

/-- Spec-side loading: accept exactly the valid rows, numbering the
accepted ones sequentially starting from `n`. -/
def specLoad (n : ℕ) : List CsvRow → List CrimeRecord
  | [] => []
  | row :: rest =>
    if rowValid row then mkRecord n row :: specLoad (n + 1) rest
    else specLoad n rest

/-- One stream step agrees with the spec-side acceptance test. -/
theorem processRow_eq (acc : List CrimeRecord) (row : CsvRow) :
    processRow acc row =
      if rowValid row then acc ++ [mkRecord (acc.length + 1) row] else acc := by
  cases hla : parseFloat row.latitude with
  | none => simp [processRow, rowValid, hla]
  | some la =>
    cases hlo : parseFloat row.longitude with
    | none => simp [processRow, rowValid, hla, hlo]
    | some lo =>
      simp only [processRow, rowValid, hla, hlo, mkRecord, Option.getD_some,
        decide_eq_true_eq]

/-- The stream fold is the spec-side load, for every accumulator. -/
theorem foldl_processRow (rows : List CsvRow) (acc : List CrimeRecord) :
    rows.foldl processRow acc = acc ++ specLoad (acc.length + 1) rows := by
  induction rows generalizing acc with
  | nil => simp [specLoad]
  | cons row rest ih =>
    rw [List.foldl_cons, processRow_eq]
    by_cases hv : rowValid row
    · rw [if_pos hv, ih]
      simp [specLoad, hv, List.append_assoc]
    · rw [if_neg hv, ih]
      simp [specLoad, hv]

/-- C6: `load` accepts a row exactly when both coordinates parse and lie in
`[-90, 90]` × `[-180, 180]`, numbering the accepted rows sequentially from
`1` (identifier formatted into a string) with the trimmed-or-`"Unknown"`
category, and drops every other row; concretely, the single row
`(200, 80, "Theft")` yields zero records and `(26.85, 80.88, "Theft")`
yields exactly one record with category `"Theft"`. -/
theorem loadRows_sequential_and_examples :
    (∀ rows : List CsvRow, loadRows rows = specLoad 1 rows)
    ∧ loadRows [⟨"200", "80", some "Theft"⟩] = []
    ∧ loadRows [⟨"26.85", "80.88", some "Theft"⟩]
        = [⟨"crime_1", 26.85, 80.88, "Theft", ⟨"26.85", "80.88", some "Theft"⟩⟩] := by
  have hgen : ∀ rows : List CsvRow, loadRows rows = specLoad 1 rows := by
    intro rows
    simpa using foldl_processRow rows []
  have h200 : parseFloat "200" = some (200 : ℚ) := by
    rw [parseFloat,
      show parseFloatParts "200".toList = some ⟨false, 200, 0, 0, 0⟩ from by decide]
    norm_num [decValue]
  have h80 : parseFloat "80" = some (80 : ℚ) := by
    rw [parseFloat,
      show parseFloatParts "80".toList = some ⟨false, 80, 0, 0, 0⟩ from by decide]
    norm_num [decValue]
  have h2685 : parseFloat "26.85" = some (26.85 : ℚ) := by
    rw [parseFloat,
      show parseFloatParts "26.85".toList = some ⟨false, 26, 85, 2, 0⟩ from by decide]
    norm_num [decValue]
  have h8088 : parseFloat "80.88" = some (80.88 : ℚ) := by
    rw [parseFloat,
      show parseFloatParts "80.88".toList = some ⟨false, 80, 88, 2, 0⟩ from by decide]
    norm_num [decValue]
  refine ⟨hgen, ?_, ?_⟩
  · have hv : rowValid ⟨"200", "80", some "Theft"⟩ = false := by
      simp only [rowValid, h200, h80]
      norm_num
    rw [hgen]
    simp [specLoad, hv]
  · have hv : rowValid ⟨"26.85", "80.88", some "Theft"⟩ = true := by
      simp only [rowValid, h2685, h8088]
      norm_num
    rw [hgen]
    simp only [specLoad, hv, if_true, mkRecord, h2685, h8088, Option.getD_some]
    refine congrArg (fun r => [r]) ?_
    have hid : "crime_" ++ toString 1 = "crime_1" := rfl
    have hcat : rowCategory ⟨"26.85", "80.88", some "Theft"⟩ = "Theft" := by decide
    simp [hid, hcat]

/-- The directory states reachable in the running process: the mock-data
initialisation at module load, followed by any interleaving of `addUser`,
`removeUser` and `cleanupOldUsers`. -/
inductive Reachable : UserMap → Prop where
  | init (t0 : ℤ) : Reachable (initializeUsers t0)
  | add (now : ℤ) (d : UserData) {m : UserMap} :
      Reachable m → Reachable (addUser now m d).1
  | remove (k : String) {m : UserMap} :
      Reachable m → Reachable (removeUser m k).1
  | cleanup (now maxAgeMs : ℤ) {m : UserMap} :
      Reachable m → Reachable (cleanupOldUsers now maxAgeMs m).1

/-- Writing with `mapSet` preserves the key-identity invariant when the written value
carries the written key. -/
theorem inv_mapSet (m : UserMap) (k : String) (v : User)
    (hm : ∀ p ∈ m, p.2.username = p.1) (hv : v.username = k) :
    ∀ p ∈ mapSet m k v, p.2.username = p.1 := by
  intro p hp
  rw [mapSet] at hp
  by_cases hall : m.any (fun q => q.1 == k)
  · rw [if_pos hall] at hp
    obtain ⟨q, hq, hfq⟩ := List.mem_map.mp hp
    by_cases hqk : q.1 = k
    · simp only [hqk, beq_self_eq_true, if_true] at hfq
      rw [← hfq]
      exact hv
    · simp only [beq_iff_eq, hqk, if_false] at hfq
      rw [← hfq]
      exact hm q hq
  · rw [if_neg hall] at hp
    rcases List.mem_append.mp hp with hin | hsing
    · exact hm p hin
    · rw [List.mem_singleton.mp hsing]
      exact hv

/-- The mock-user initialisation fold establishes the invariant. -/
theorem inv_initializeUsers (t0 : ℤ) :
    ∀ p ∈ initializeUsers t0, p.2.username = p.1 := by
  have hgen : ∀ (us : List User) (m : UserMap), (∀ p ∈ m, p.2.username = p.1) →
      ∀ p ∈ us.foldl (fun m u => mapSet m u.username u) m, p.2.username = p.1 := by
    intro us
    induction us with
    | nil => intro m hm; simpa using hm
    | cons u rest ih =>
      intro m hm
      simpa using ih (mapSet m u.username u) (inv_mapSet m u.username u hm rfl)
  exact hgen (mockUsers t0) [] (by simp)

/-- C10: in every reachable directory state, each stored entry's `username`
field equals the key under which it is stored — the invariant holds after
initialisation and is preserved by `addUser`, `removeUser` and the eviction
sweep — and consequently `getUser(k)`, when it returns an entry, returns an
entry whose identity is `k`. -/
theorem reachable_key_matches_entry (m : UserMap) (h : Reachable m) :
    (∀ p ∈ m, p.2.username = p.1)
    ∧ ∀ k u, getUser m k = some u → u.username = k := by
  have hinv : ∀ p ∈ m, p.2.username = p.1 := by
    induction h with
    | init t0 => exact inv_initializeUsers t0
    | add now d hm ih =>
      rename_i m'
      rw [addUser]
      by_cases hc : !strOptTruthy d.username || !d.latitude.truthy || !d.longitude.truthy
      · simpa [hc] using ih
      · rw [if_neg hc]
        exact inv_mapSet m' (d.username.getD "")
          ⟨d.username.getD "", d.latitude.parse, d.longitude.parse, d.lastSeen.getD now⟩
          ih rfl
    | remove k hm ih =>
      intro p hp
      exact ih p (List.mem_of_mem_filter hp)
    | cleanup now maxAgeMs hm ih =>
      intro p hp
      simp only [cleanupOldUsers] at hp
      exact ih p (List.mem_of_mem_filter hp)
  refine ⟨hinv, fun k u hu => ?_⟩
  rw [getUser, mapGet] at hu
  cases hfind : List.find? (fun p => p.1 == k) m with
  | none =>
    rw [hfind] at hu
    simp at hu
  | some p =>
    rw [hfind] at hu
    simp only [Option.map_some'] at hu
    have hmem := List.mem_of_find?_eq_some hfind
    have hkey : p.1 = k := by
      have := List.find?_some hfind
      simpa using this
    have hp2 : p.2 = u := Option.some.inj hu
    rw [← hp2, hinv p hmem, hkey]

/-- Witness for C10: the invariant holds in the concrete initial state. -/
theorem reachable_key_matches_entry_witness :
    (∀ p ∈ initializeUsers 0, p.2.username = p.1)
    ∧ ∀ k u, getUser (initializeUsers 0) k = some u → u.username = k :=
  reachable_key_matches_entry (initializeUsers 0) (Reachable.init 0)

/-- Spec-side: the key is not the (possibly absent) excluded identity. -/
def notExcluded (ex : Option String) (k : String) : Bool :=
  match ex with
  | some s => k != s
  | none => true

/-- Spec-side: the entry has finite stored coordinates whose distance from
the centre is within the radius (inclusive). -/
def withinB (dist : ℚ → ℚ → ℚ → ℚ → ℚ) (lat lng radius : ℚ) (u : User) : Bool :=
  match u.latitude, u.longitude with
  | some ulat, some ulng => decide (dist lat lng ulat ulng ≤ radius)
  | _, _ => false

/-- Spec-side selection predicate of the nearby query: the entry is not the
excluded identity, its stored coordinates are finite, and its distance from
the centre is within the radius (inclusive). -/
def keepEntry (dist : ℚ → ℚ → ℚ → ℚ → ℚ) (lat lng radius : ℚ) (ex : Option String)
    (p : String × User) : Bool :=
  notExcluded ex p.1 && withinB dist lat lng radius p.2

/-- Annotation of a kept entry with its computed distance. -/
def annotate (dist : ℚ → ℚ → ℚ → ℚ → ℚ) (lat lng : ℚ) (p : String × User) : NearbyUser :=
  ⟨p.2, dist lat lng (p.2.latitude.getD 0) (p.2.longitude.getD 0)⟩

/-- The scan of `findNearbyUsers` keeps exactly the spec-side selection,
annotated, provided a supplied excluded identity is a non-empty string. -/
theorem filterMap_nearbyStep (dist : ℚ → ℚ → ℚ → ℚ → ℚ) (lat lng radius : ℚ)
    (ex : Option String) (m : UserMap) (hex : ∀ s, ex = some s → s ≠ "") :
    m.filterMap (nearbyStep dist lat lng radius ex)
      = (m.filter (keepEntry dist lat lng radius ex)).map (annotate dist lat lng) := by
  induction m with
  | nil => rfl
  | cons p t ih =>
    rw [List.filterMap_cons, List.filter_cons]
    have hexkeep : excludesB ex p.1 = !notExcluded ex p.1 := by
      cases ex with
      | none => rfl
      | some s =>
        have hs : s ≠ "" := hex s rfl
        simp [excludesB, notExcluded, bne, Bool.not_not, hs]
    by_cases hexc : excludesB ex p.1
    · have hkeep : keepEntry dist lat lng radius ex p = false := by
        rw [hexkeep] at hexc
        simp only [Bool.not_eq_true'] at hexc
        simp [keepEntry, hexc]
      rw [nearbyStep, if_pos hexc, hkeep]
      simpa using ih
    · have hfirst : notExcluded ex p.1 = true := by
        rw [hexkeep] at hexc
        simpa using hexc
      rw [nearbyStep, if_neg hexc]
      cases hla : p.2.latitude with
      | none =>
        have hkeep : keepEntry dist lat lng radius ex p = false := by
          simp [keepEntry, withinB, hla]
        rw [hkeep]
        simpa [hla] using ih
      | some ulat =>
        cases hlo : p.2.longitude with
        | none =>
          have hkeep : keepEntry dist lat lng radius ex p = false := by
            simp [keepEntry, withinB, hla, hlo]
          rw [hkeep]
          simpa [hla, hlo] using ih
        | some ulng =>
          by_cases hd : dist lat lng ulat ulng ≤ radius
          · have hkeep : keepEntry dist lat lng radius ex p = true := by
              simp [keepEntry, withinB, hfirst, hla, hlo, hd]
            have hann : annotate dist lat lng p = ⟨p.2, dist lat lng ulat ulng⟩ := by
              simp [annotate, hla, hlo]
            rw [hkeep]
            simp [hla, hlo, hd, hann, ih]
          · have hkeep : keepEntry dist lat lng radius ex p = false := by
              simp [keepEntry, withinB, hla, hlo, hd]
            rw [hkeep]
            simp only [hla, hlo, if_neg hd]
            simpa using ih

instance : IsTotal NearbyUser (fun a b => a.distance ≤ b.distance) :=
  ⟨fun a b => le_total a.distance b.distance⟩

instance : IsTrans NearbyUser (fun a b => a.distance ≤ b.distance) :=
  ⟨fun _ _ _ hab hbc => le_trans hab hbc⟩

/-- C1: for a finite numeric centre, every radius `r ≥ 0` and every
directory state, `findNearbyUsers` returns exactly the stored entries with
finite coordinates within distance `r` of the centre — excluding the entry
stored under a supplied (non-empty) excluded identity — each annotated
with its computed distance, sorted ascending by distance; for a
non-numeric centre coordinate it returns the empty sequence. -/
theorem findNearbyUsers_exact_sorted (dist : ℚ → ℚ → ℚ → ℚ → ℚ) (m : UserMap)
    (lat lng radius : ℚ) (ex : Option String)
    (_hr : 0 ≤ radius) (hex : ∀ s, ex = some s → s ≠ "") :
    List.Perm (findNearbyUsers dist m (.num lat) (.num lng) radius ex)
        ((m.filter (keepEntry dist lat lng radius ex)).map (annotate dist lat lng))
    ∧ List.Sorted (fun a b : NearbyUser => a.distance ≤ b.distance)
        (findNearbyUsers dist m (.num lat) (.num lng) radius ex)
    ∧ ∀ la lo : JsVal, la.parse = none ∨ lo.parse = none →
        findNearbyUsers dist m la lo radius ex = [] := by
  refine ⟨?_, ?_, ?_⟩
  · show List.Perm
      ((m.filterMap (nearbyStep dist lat lng radius ex)).insertionSort
        (fun a b => a.distance ≤ b.distance)) _
    rw [filterMap_nearbyStep dist lat lng radius ex m hex]
    exact List.perm_insertionSort _ _
  · exact List.sorted_insertionSort _ _
  · intro la lo hno
    cases hla : la.parse with
    | none => simp [findNearbyUsers, hla]
    | some a =>
      cases hlo : lo.parse with
      | none => simp [findNearbyUsers, hla, hlo]
      | some b =>
        rcases hno with h | h
        · rw [hla] at h
          exact absurd h (by simp)
        · rw [hlo] at h
          exact absurd h (by simp)

/-- Witness for C1: the query on a two-entry store with identity `"A"`
excluded, radius `200` and a constant-zero distance function. -/
theorem findNearbyUsers_exact_sorted_witness :
    List.Perm
        (findNearbyUsers (fun _ _ _ _ => 0)
          [("A", ⟨"A", some 1, some 2, 0⟩), ("B", ⟨"B", some 3, some 4, 0⟩)]
          (.num 5) (.num 6) 200 (some "A"))
        (([("A", ⟨"A", some 1, some 2, 0⟩), ("B", ⟨"B", some 3, some 4, 0⟩)].filter
            (keepEntry (fun _ _ _ _ => 0) 5 6 200 (some "A"))).map
          (annotate (fun _ _ _ _ => 0) 5 6))
    ∧ List.Sorted (fun a b : NearbyUser => a.distance ≤ b.distance)
        (findNearbyUsers (fun _ _ _ _ => 0)
          [("A", ⟨"A", some 1, some 2, 0⟩), ("B", ⟨"B", some 3, some 4, 0⟩)]
          (.num 5) (.num 6) 200 (some "A"))
    ∧ ∀ la lo : JsVal, la.parse = none ∨ lo.parse = none →
        findNearbyUsers (fun _ _ _ _ => 0)
          [("A", ⟨"A", some 1, some 2, 0⟩), ("B", ⟨"B", some 3, some 4, 0⟩)]
          la lo 200 (some "A") = [] :=
  findNearbyUsers_exact_sorted (fun _ _ _ _ => 0)
    [("A", ⟨"A", some 1, some 2, 0⟩), ("B", ⟨"B", some 3, some 4, 0⟩)]
    5 6 200 (some "A") (by norm_num)
    (fun s hs => by
      injection hs with h
      subst h
      decide)

/-- C2 (exhibit of the defect): `routes/sos.js` calls
`findNearbyUsers(lat, lng, NEARBY_RADIUS)` without the exclusion argument,
so an alert from `"Sarah_M"` — whose entry is already stored at the alert
coordinates — yields a nearby list that contains the sender herself
(annotated with her zero self-distance), before her entry is then
upserted with the alert timestamp. -/
theorem handleSos_includes_sender (dist : ℚ → ℚ → ℚ → ℚ → ℚ)
    (h0 : dist 40.7580 (-73.9855) 40.7580 (-73.9855) ≤ 500) :
    handleSos dist 500 1 [("Sarah_M", ⟨"Sarah_M", some 40.7580, some (-73.9855), 0⟩)]
        (some "Sarah_M") (.num 40.7580) (.num (-73.9855))
      = .success
          [⟨⟨"Sarah_M", some 40.7580, some (-73.9855), 0⟩,
            dist 40.7580 (-73.9855) 40.7580 (-73.9855)⟩]
          [("Sarah_M", ⟨"Sarah_M", some 40.7580, some (-73.9855), 1⟩)]
      ∧ "Sarah_M" ∈
          [NearbyUser.mk ⟨"Sarah_M", some 40.7580, some (-73.9855), 0⟩
            (dist 40.7580 (-73.9855) 40.7580 (-73.9855))].map
            (fun nu => nu.user.username) := by
  constructor
  · rw [handleSos, if_neg]
    case hnc =>
      norm_num [strOptTruthy, JsVal.truthy]
      decide
    simp only [JsVal.parse]
    rw [if_neg]
    case hnc => norm_num
    · have hnear :
          findNearbyUsers dist
              [("Sarah_M", ⟨"Sarah_M", some 40.7580, some (-73.9855), 0⟩)]
              (.num 40.7580) (.num (-73.9855)) 500 none
            = [⟨⟨"Sarah_M", some 40.7580, some (-73.9855), 0⟩,
                dist 40.7580 (-73.9855) 40.7580 (-73.9855)⟩] := by
        simp [findNearbyUsers, nearbyStep, excludesB, JsVal.parse, h0]
      have hadd :
          (addUser 1 [("Sarah_M", ⟨"Sarah_M", some 40.7580, some (-73.9855), 0⟩)]
              ⟨some "Sarah_M", .num 40.7580, .num (-73.9855), some 1⟩).1
            = [("Sarah_M", ⟨"Sarah_M", some 40.7580, some (-73.9855), 1⟩)] := by
        rw [addUser, if_neg]
        · simp [mapSet, JsVal.parse]
        · norm_num [strOptTruthy, JsVal.truthy]
          decide
      rw [hnear, hadd]
  · simp

/-- Witness for C2's exhibit, instantiated with a concrete distance
function that vanishes on coinciding points. -/
theorem handleSos_includes_sender_witness :
    handleSos (fun _ _ _ _ => 0) 500 1
        [("Sarah_M", ⟨"Sarah_M", some 40.7580, some (-73.9855), 0⟩)]
        (some "Sarah_M") (.num 40.7580) (.num (-73.9855))
      = .success
          [⟨⟨"Sarah_M", some 40.7580, some (-73.9855), 0⟩, 0⟩]
          [("Sarah_M", ⟨"Sarah_M", some 40.7580, some (-73.9855), 1⟩)]
      ∧ "Sarah_M" ∈
          [NearbyUser.mk ⟨"Sarah_M", some 40.7580, some (-73.9855), 0⟩ 0].map
            (fun nu => nu.user.username) :=
  handleSos_includes_sender (fun _ _ _ _ => 0) (by norm_num)

/-- C4 counterexample: reloading a one-record collection from a source that
yields a different one-record collection lets a concurrent reader observe
the empty collection mid-reload — `reloadCrimeData` clears the loaded flag
before awaiting the load, and `getCrimeData` then returns `[]` — which is
neither the complete prior collection nor the complete new one. -/
theorem reload_reader_observes_empty :
    getCrimeData ⟨[⟨"crime_1", 1, 2, "Theft", ⟨"1", "2", some "Theft"⟩⟩], true⟩
      = [⟨"crime_1", 1, 2, "Theft", ⟨"1", "2", some "Theft"⟩⟩]
    ∧ reloadStarted ⟨[⟨"crime_1", 1, 2, "Theft", ⟨"1", "2", some "Theft"⟩⟩], true⟩
        ∈ reloadObservableStates ⟨[⟨"crime_1", 1, 2, "Theft", ⟨"1", "2", some "Theft"⟩⟩], true⟩
            (.ok [⟨"3", "4", some "Arson"⟩])
    ∧ getCrimeData (reloadStarted ⟨[⟨"crime_1", 1, 2, "Theft", ⟨"1", "2", some "Theft"⟩⟩], true⟩)
        = []
    ∧ getCrimeData (loadCrimeData (.ok [⟨"3", "4", some "Arson"⟩])).1
        = [⟨"crime_1", 3, 4, "Arson", ⟨"3", "4", some "Arson"⟩⟩]
    ∧ ([] : List CrimeRecord) ≠ [⟨"crime_1", 1, 2, "Theft", ⟨"1", "2", some "Theft"⟩⟩]
    ∧ ([] : List CrimeRecord) ≠ [⟨"crime_1", 3, 4, "Arson", ⟨"3", "4", some "Arson"⟩⟩] := by
  have h3 : parseFloat "3" = some (3 : ℚ) := by
    rw [parseFloat, show parseFloatParts "3".toList = some ⟨false, 3, 0, 0, 0⟩ from by decide]
    norm_num [decValue]
  have h4 : parseFloat "4" = some (4 : ℚ) := by
    rw [parseFloat, show parseFloatParts "4".toList = some ⟨false, 4, 0, 0, 0⟩ from by decide]
    norm_num [decValue]
  have hv : rowValid ⟨"3", "4", some "Arson"⟩ = true := by
    simp only [rowValid, h3, h4]
    norm_num
  refine ⟨rfl, by simp [reloadObservableStates], rfl, ?_, by simp, by simp⟩
  show loadRows [⟨"3", "4", some "Arson"⟩] = _
  rw [show loadRows [⟨"3", "4", some "Arson"⟩]
      = ([] : List CrimeRecord) ++ specLoad 1 [⟨"3", "4", some "Arson"⟩] from
        foldl_processRow _ []]
  simp only [specLoad, hv, if_true, List.nil_append, mkRecord, h3, h4, Option.getD_some]
  refine congrArg (fun r => [r]) ?_
  have hcat : rowCategory ⟨"3", "4", some "Arson"⟩ = "Arson" := by decide
  have hid : "crime_" ++ toString 1 = "crime_1" := rfl
  simp [hcat, hid]

/-- C4 (amended): during a reload, a reader observes either the complete
prior collection (before the reload call), the empty collection (while the
asynchronous load is in flight, because the loaded flag was cleared), or
the complete new collection (after the load settles); at no observable
point does it see a partial collection or a mixture of the two
generations. -/
theorem reload_observable_old_empty_or_new (st : CrimeState) (src : CsvSource) :
    ∀ s ∈ reloadObservableStates st src,
      getCrimeData s = getCrimeData st
      ∨ getCrimeData s = []
      ∨ getCrimeData s = getCrimeData (loadCrimeData src).1 := by
  intro s hs
  simp only [reloadObservableStates, List.mem_cons, List.not_mem_nil, or_false] at hs
  rcases hs with rfl | rfl | rfl
  · left
    rfl
  · right
    left
    simp [getCrimeData, reloadStarted]
  · right
    right
    rfl

/-- Witness for the amended C4 theorem: the mid-reload state of an empty
loaded collection being reloaded from a missing source. -/
theorem reload_observable_old_empty_or_new_witness :
    getCrimeData (reloadStarted ⟨[], true⟩) = getCrimeData (⟨[], true⟩ : CrimeState)
    ∨ getCrimeData (reloadStarted ⟨[], true⟩) = []
    ∨ getCrimeData (reloadStarted ⟨[], true⟩) = getCrimeData (loadCrimeData .missing).1 :=
  reload_observable_old_empty_or_new ⟨[], true⟩ .missing (reloadStarted ⟨[], true⟩)
    (by simp [reloadObservableStates])

/-- Parsing the empty string with `parseFloat` never succeeds. -/
theorem parseFloat_empty : parseFloat "" = none :=
  rfl

/-- The area-filter guard fails when a parameter is absent or fails to
parse. -/
theorem areaParams_eq_none (lat lng radius : Option String)
    (h : lat = none ∨ lng = none ∨ radius = none
       ∨ (∃ s, lat = some s ∧ parseFloat s = none)
       ∨ (∃ s, lng = some s ∧ parseFloat s = none)
       ∨ (∃ s, radius = some s ∧ parseFloat s = none)) :
    areaParams lat lng radius = none := by
  rcases lat with _ | sa
  · rfl
  rcases lng with _ | sb
  · rfl
  rcases radius with _ | sr
  · rfl
  rw [areaParams]
  by_cases hne : (sa != "" && sb != "" && sr != "") = true
  · rw [if_pos hne]
    rcases h with h | h | h | ⟨s, hs, hp⟩ | ⟨s, hs, hp⟩ | ⟨s, hs, hp⟩
    · exact absurd h (by simp)
    · exact absurd h (by simp)
    · exact absurd h (by simp)
    · obtain rfl : s = sa := by
        injection hs with hx
        exact hx.symm
      cases parseFloat sb <;> cases parseFloat sr <;> simp [hp]
    · obtain rfl : s = sb := by
        injection hs with hx
        exact hx.symm
      cases parseFloat sa <;> cases parseFloat sr <;> simp [hp]
    · obtain rfl : s = sr := by
        injection hs with hx
        exact hx.symm
      cases parseFloat sa <;> cases parseFloat sb <;> simp [hp]
  · rw [if_neg hne]

/-- C9: the crime query applies the area filter only when `lat`, `lng` and
`radius` are all supplied and all three parse as numbers; when any is
absent or non-numeric the query still succeeds, returning the type-filtered
collection with the area parameters silently ignored rather than a
validation rejection. -/
theorem crimeZones_area_filter_only_when_numeric (dist : ℚ → ℚ → ℚ → ℚ → ℚ)
    (cd : List CrimeRecord) (lat lng radius ty : Option String) :
    ((lat = none ∨ lng = none ∨ radius = none
        ∨ (∃ s, lat = some s ∧ parseFloat s = none)
        ∨ (∃ s, lng = some s ∧ parseFloat s = none)
        ∨ (∃ s, radius = some s ∧ parseFloat s = none)) →
      handleCrimeZones dist cd lat lng radius ty
        = if cd.isEmpty then [] else typeFilter cd ty)
    ∧ ∀ sa sb sr la lo ra, lat = some sa → lng = some sb → radius = some sr →
        parseFloat sa = some la → parseFloat sb = some lo → parseFloat sr = some ra →
        handleCrimeZones dist cd lat lng radius ty
          = if cd.isEmpty then []
            else (typeFilter cd ty).filter
              (fun c => decide (dist la lo c.latitude c.longitude ≤ ra)) := by
  constructor
  · intro h
    rw [handleCrimeZones, areaParams_eq_none lat lng radius h]
  · intro sa sb sr la lo ra hsa hsb hsr hpa hpb hpr
    subst hsa
    subst hsb
    subst hsr
    have hna : sa ≠ "" := fun hx => by
      rw [hx, parseFloat_empty] at hpa
      cases hpa
    have hnb : sb ≠ "" := fun hx => by
      rw [hx, parseFloat_empty] at hpb
      cases hpb
    have hnr : sr ≠ "" := fun hx => by
      rw [hx, parseFloat_empty] at hpr
      cases hpr
    have hap : areaParams (some sa) (some sb) (some sr) = some (la, lo, ra) := by
      rw [areaParams, if_pos (by simp [hna, hnb, hnr]), hpa, hpb, hpr]
    rw [handleCrimeZones, hap]

/-- Witness for C9: a non-numeric `lat` parameter on a one-record
collection leaves the type-filtered collection unchanged. -/
theorem crimeZones_area_filter_witness :
    handleCrimeZones (fun _ _ _ _ => 0)
        [⟨"crime_1", 1, 2, "Theft", ⟨"1", "2", some "Theft"⟩⟩]
        (some "abc") (some "4") (some "500") none
      = if ([⟨"crime_1", 1, 2, "Theft", ⟨"1", "2", some "Theft"⟩⟩] : List CrimeRecord).isEmpty
        then []
        else typeFilter [⟨"crime_1", 1, 2, "Theft", ⟨"1", "2", some "Theft"⟩⟩] none :=
  (crimeZones_area_filter_only_when_numeric (fun _ _ _ _ => 0)
      [⟨"crime_1", 1, 2, "Theft", ⟨"1", "2", some "Theft"⟩⟩]
      (some "abc") (some "4") (some "500") none).1
    (Or.inr (Or.inr (Or.inr (Or.inl ⟨"abc", rfl, by
      rw [parseFloat, show parseFloatParts "abc".toList = none from by decide]
      rfl⟩))))

end WSA
